import Mathlib

/-!
Shallow embedding of the core of distributed key-value service that runs either a
crash-fault-tolerant (Raft-style) consensus engine or a Byzantine-fault-tolerant
(pBFT-style) one.  The definitions below are transliterated from the Python
sources:

* `src/consensus/state_machine.py` — `StateMachine.apply`
* `src/storage/wal.py`             — `WAL.save` / `WAL.load`
* `src/consensus/raft.py`          — election, replication, commit advancement,
                                     the apply loop
* `src/consensus/pbft.py`          — the three-phase voting machine and the
                                     view-change timer
* `src/infrastructure/comms.py`    — the outbound partition filter

Time, threads and the network are factored out: each RPC handler becomes a pure
function from a replica state and a message to a new state plus its reply, with
ghost fields recording the observable side effects (WAL saves, election-timer
resets, state-machine `apply` calls).  The SHA-256 digest used by the BFT engine
is abstracted as a parameter `H : String → String`.
-/

/-! ## Python string primitives used by `StateMachine.apply` -/

/-- ASCII whitespace as recognised by Python's `str.strip()` / `str.split()`. -/
def pyIsSpace (c : Char) : Bool :=
  c = ' ' || c = '\t' || c = '\n' || c = '\r' || c = '\x0b' || c = '\x0c'

/-- Python `str.strip()` on a list of characters. -/
def pyStripL (l : List Char) : List Char :=
  ((l.dropWhile pyIsSpace).reverse.dropWhile pyIsSpace).reverse

/-- Python `s.split(maxsplit=1)`: split on the first run of whitespace,
returning `[]` for an all-whitespace string. -/
def pySplit1 (l : List Char) : List (List Char) :=
  let l1 := l.dropWhile pyIsSpace
  if l1.isEmpty then []
  else
    let tok := l1.takeWhile (fun c => !(pyIsSpace c))
    let rest := (l1.dropWhile (fun c => !(pyIsSpace c))).dropWhile pyIsSpace
    if rest.isEmpty then [tok] else [tok, rest]

/-- Python `str.upper()` (ASCII letters, as used for command keywords). -/
def pyUpper (l : List Char) : List Char := l.map Char.toUpper

/-- Python `s.split('=', 1)`: the part before the first `'='` and the part
after it (the second component is everything after that first `'='`). -/
def splitEq1 (l : List Char) : List Char × List Char :=
  (l.takeWhile (fun c => c ≠ '='), (l.dropWhile (fun c => c ≠ '=')).drop 1)

/-! ## The key-value state machine (`src/consensus/state_machine.py`) -/

/-- The in-memory map of `StateMachine`, as an association list without
duplicate keys (Python `dict` keyed by strings). -/
abbrev KVMap := List (String × String)

def kvGet (m : KVMap) (k : String) : Option String :=
  (m.find? (fun p => p.1 == k)).map (·.2)

/-- Python `self.data[k] = v`: overwrite in place if present, else append. -/
def kvSet (m : KVMap) (k v : String) : KVMap :=
  if (m.find? (fun p => p.1 == k)).isSome then
    m.map (fun p => if p.1 == k then (k, v) else p)
  else m ++ [(k, v)]

/-- Python `del self.data[k]`. -/
def kvDelete (m : KVMap) (k : String) : KVMap :=
  m.filter (fun p => p.1 != k)

/-- `StateMachine.apply(command)` from `src/consensus/state_machine.py`
(lines 20–65), returning `(ok, message, updated map)`.  The Python
`try/except` wraps code whose only mutations are the single final dict
assignment (`SET`) or deletion (`DELETE`), so the exception path cannot leave
a partial mutation and is not a separate case here. -/
def StateMachine.apply (command : String) (data : KVMap) : Bool × String × KVMap :=
  match pySplit1 (pyStripL command.data) with
  | [] => (false, "Empty command", data)
  | p0 :: rest =>
    let op := pyUpper p0
    if op = "SET".data ∧ rest.length = 1 then
      let p1 := rest.headD []
      if p1.contains '=' then
        let kv := splitEq1 p1
        let key : String := ⟨pyStripL kv.1⟩
        let value : String := ⟨pyStripL kv.2⟩
        (true, "OK: " ++ key ++ "=" ++ value, kvSet data key value)
      else (false, "SET requires key=value format", data)
    else if op = "DELETE".data ∧ rest.length = 1 then
      let key : String := ⟨pyStripL (rest.headD [])⟩
      if (kvGet data key).isSome then (true, "OK: deleted " ++ key, kvDelete data key)
      else (false, "Key not found: " ++ key, data)
    else if op = "GET".data ∧ rest.length = 1 then
      let key : String := ⟨pyStripL (rest.headD [])⟩
      match kvGet data key with
      | some v => (true, v, data)
      | none => (false, "Key not found: " ++ key, data)
    else (false, "Unknown command: " ++ command, data)

/-! ## The write-ahead log (`src/storage/wal.py`) -/

/-- JSON values as produced/consumed by Python's `json` module. -/
inductive Json where
  | null : Json
  | jbool : Bool → Json
  | num : Int → Json
  | str : String → Json
  | arr : List Json → Json
  | obj : List (String × Json) → Json

/-- Python `dict.get(k)` on a decoded JSON object. -/
def jsonGet (fields : List (String × Json)) (k : String) : Option Json :=
  (fields.find? (fun p => p.1 == k)).map (·.2)

/-- A log entry `{'term': ..., 'command': ...}`. -/
structure LogEntry where
  term : Nat
  command : String
deriving DecidableEq, Repr

def logEntryToJson (e : LogEntry) : Json :=
  Json.obj [("term", Json.num (e.term : Int)), ("command", Json.str e.command)]

/-- The state of the single WAL file of a replica: missing, holding bytes that
`json.load` rejects (`JSONDecodeError`), or holding a parsed JSON value. -/
inductive WalFile where
  | absent : WalFile
  | corrupt : WalFile
  | content : Json → WalFile

/-- `WAL.save(current_term, voted_for, log)`: the temp-file write plus atomic
rename replaces the whole file with one record (lines 25–49). -/
def WAL.save (current_term : Nat) (voted_for : Option Nat) (log : List LogEntry)
    (_old : WalFile) : WalFile :=
  WalFile.content (Json.obj
    [("current_term", Json.num (current_term : Int)),
     ("voted_for", match voted_for with | none => Json.null | some i => Json.num (i : Int)),
     ("log", Json.arr (log.map logEntryToJson))])

/-- `state.get('current_term', 0)`, narrowed to the type the engine holds
(a save-produced field is always a non-negative number; a missing field
defaults to `0`). -/
def decodeTermField : Option Json → Nat
  | some (Json.num n) => n.toNat
  | _ => 0

/-- `state.get('voted_for')`: `null`/missing becomes `none`. -/
def decodeVotedForField : Option Json → Option Nat
  | some (Json.num n) => some n.toNat
  | _ => none

def decodeCommandField : Option Json → String
  | some (Json.str s) => s
  | _ => ""

def decodeEntry : Json → LogEntry
  | Json.obj f => ⟨decodeTermField (jsonGet f "term"), decodeCommandField (jsonGet f "command")⟩
  | _ => ⟨0, ""⟩

/-- `state.get('log', [])`. -/
def decodeLogField : Option Json → List LogEntry
  | some (Json.arr xs) => xs.map decodeEntry
  | _ => []

/-- `WAL.load()` (lines 51–78): `(0, None, [])` when the file is missing, when
`json.load` raises `JSONDecodeError`, or when the parsed value is not an object
(the `except Exception` path); field extraction with defaults otherwise. -/
def WAL.load : WalFile → Nat × Option Nat × List LogEntry
  | WalFile.absent => (0, none, [])
  | WalFile.corrupt => (0, none, [])
  | WalFile.content (Json.obj f) =>
      (decodeTermField (jsonGet f "current_term"),
       decodeVotedForField (jsonGet f "voted_for"),
       decodeLogField (jsonGet f "log"))
  | WalFile.content _ => (0, none, [])

/-- A sequence of completed `save` calls applied to an initial file state. -/
def WAL.runSaves (f0 : WalFile) (saves : List (Nat × Option Nat × List LogEntry)) : WalFile :=
  saves.foldl (fun f s => WAL.save s.1 s.2.1 s.2.2 f) f0

/-! ## The CFT (Raft) engine (`src/consensus/raft.py`) -/

inductive Role where
  | Follower : Role
  | Candidate : Role
  | Leader : Role
deriving DecidableEq, Repr

/-- The consensus state of one Raft replica.  `wal_history`, `timer_resets` and
`sm_applied` are ghost fields recording, in order, the `_persist()` calls, the
election-timer resets (`last_heartbeat`/`election_timeout` assignments) and the
commands handed to `state_machine.apply`. -/
structure RaftState where
  current_term : Nat
  voted_for : Option Nat
  log : List LogEntry
  state : Role
  commit_index : Nat
  last_applied : Nat
  node_id : Nat
  peer_ids : List Nat
  next_index : List (Nat × Nat)
  match_index : List (Nat × Nat)
  wal_history : List (Nat × Option Nat × List LogEntry)
  timer_resets : Nat
  sm_applied : List String
deriving Repr

/-- `_persist` (line 56): `self.wal.save(self.current_term, self.voted_for, self.log)`. -/
def _persist (s : RaftState) : RaftState :=
  { s with wal_history := s.wal_history ++ [(s.current_term, s.voted_for, s.log)] }

/-- `self.last_heartbeat = time.time(); self.election_timeout = self._random_timeout()`. -/
def reset_election_timer (s : RaftState) : RaftState :=
  { s with timer_resets := s.timer_resets + 1 }

/-- `_last_log_term` (lines 64–68), over an explicit log. -/
def _last_log_term_of (log : List LogEntry) : Nat :=
  match log.getLast? with
  | some e => e.term
  | none => 0

structure RequestVoteArgs where
  term : Nat
  candidate_id : Nat
  last_log_index : Nat
  last_log_term : Nat
deriving DecidableEq, Repr

structure RequestVoteReply where
  term : Nat
  vote_granted : Bool
deriving DecidableEq, Repr

/-- Lines 313–329 of `handle_request_vote`: the log-freshness check, the vote
decision, and on a grant the `voted_for` update, timer reset and `_persist()`
before the reply. -/
def rv_grant_phase (s1 : RaftState) (r : RequestVoteArgs) : RaftState × RequestVoteReply :=
  if (s1.voted_for = none ∨ s1.voted_for = some r.candidate_id) ∧
      (_last_log_term_of s1.log < r.last_log_term ∨
        (r.last_log_term = _last_log_term_of s1.log ∧ s1.log.length ≤ r.last_log_index)) then
    let s2 := _persist (reset_election_timer { s1 with voted_for := some r.candidate_id })
    (s2, ⟨s2.current_term, true⟩)
  else
    (s1, ⟨s1.current_term, false⟩)

/-- `handle_request_vote` (lines 299–329): reject a stale term; adopt a strictly
higher term (resetting `voted_for`, reverting to Follower, persisting); then
decide the vote. -/
def handle_request_vote (s : RaftState) (r : RequestVoteArgs) : RaftState × RequestVoteReply :=
  if r.term < s.current_term then
    (s, ⟨s.current_term, false⟩)
  else if s.current_term < r.term then
    rv_grant_phase
      (_persist { s with current_term := r.term, voted_for := none, state := Role.Follower }) r
  else
    rv_grant_phase s r

/-- `self.match_index.get(peer_id, 0)`. -/
def match_index_of (s : RaftState) (p : Nat) : Nat :=
  ((s.match_index.find? (fun q => q.1 == p)).map (·.2)).getD 0

/-- The replica count for index `n` in `_update_commit_index`: the leader
itself plus every peer whose `match_index` is at least `n` (lines 276–280). -/
def count_replicated (s : RaftState) (n : Nat) : Nat :=
  1 + (s.peer_ids.filter (fun p => decide (n ≤ match_index_of s p))).length

/-- `(len(self.node.peers) + 1) // 2`: the threshold a strict majority must exceed. -/
def majority_threshold (s : RaftState) : Nat := (s.peer_ids.length + 1) / 2

/-- `self.log[n - 1]['term']` for a 1-indexed `n` (0 out of range). -/
def log_term_at (s : RaftState) (n : Nat) : Nat :=
  match s.log.get? (n - 1) with
  | some e => e.term
  | none => 0

/-- The loop of `_update_commit_index` (lines 272–285):
`for n in range(len(log), commit_index, -1)`, skipping indices whose term is
not the current term, committing the first (largest) majority-replicated
index and stopping. -/
def commit_scan (s : RaftState) : Nat → Nat
  | 0 => s.commit_index
  | n + 1 =>
    if n + 1 ≤ s.commit_index then s.commit_index
    else if log_term_at s (n + 1) = s.current_term ∧
        majority_threshold s < count_replicated s (n + 1) then n + 1
    else commit_scan s n

/-- `_update_commit_index` (lines 264–285). -/
def _update_commit_index (s : RaftState) : RaftState :=
  if s.state = Role.Leader then { s with commit_index := commit_scan s s.log.length } else s

/-- The `while` loop of `_apply_committed_entries` (lines 117–120): advance
`last_applied`, rebinding the local `command` at each step.  Returns the final
`last_applied` and the last value bound to `command`, if any.  The fuel
argument is instantiated with `commit_index - last_applied`, an upper bound on
the iteration count, so the recursion is structural. -/
def apply_scan (log : List LogEntry) (ci : Nat) : Nat → Nat → Option String → Nat × Option String
  | 0, la, cmd => (la, cmd)
  | fuel + 1, la, cmd =>
    if la < ci ∧ la < log.length then
      apply_scan log ci fuel (la + 1) (some ((log.getD la ⟨0, ""⟩).command))
    else (la, cmd)

/-- `_apply_committed_entries` (lines 114–125): run the loop under the lock,
then — outside the lock — call `state_machine.apply(command)` once if the local
`command` was bound (`if 'command' in dir()`). -/
def _apply_committed_entries (s : RaftState) : RaftState :=
  let r := apply_scan s.log s.commit_index (s.commit_index - s.last_applied) s.last_applied none
  let s1 := { s with last_applied := r.1 }
  match r.2 with
  | some c => { s1 with sm_applied := s1.sm_applied ++ [c] }
  | none => s1

/-! ## The BFT (pBFT) engine (`src/consensus/pbft.py`) -/

structure ClientRequest where
  operation : String
  timestamp : Nat
  client_id : Nat
deriving DecidableEq, Repr

structure PrePrepareMsg where
  view : Nat
  sequence : Nat
  digest : String
  request : ClientRequest
  primary_id : Nat
deriving DecidableEq, Repr

structure PrepareMsg where
  view : Nat
  sequence : Nat
  digest : String
  replica_id : Nat
deriving DecidableEq, Repr

structure CommitMsg where
  view : Nat
  sequence : Nat
  digest : String
  replica_id : Nat
deriving DecidableEq, Repr

inductive PBFTPhase where
  | normal : PBFTPhase
  | viewChange : PBFTPhase
deriving DecidableEq, Repr

/-- Python dict lookup on an association list (`d.get(k)` / `d[k]`). -/
def mapLookup {α β : Type} [BEq α] : List (α × β) → α → Option β
  | [], _ => none
  | (a, b) :: t, k => if a == k then some b else mapLookup t k

/-- Python dict assignment `d[k] = v`: overwrite in place, else append. -/
def mapInsert {α β : Type} [BEq α] : List (α × β) → α → β → List (α × β)
  | [], k, v => [(k, v)]
  | (a, b) :: t, k, v => if a == k then (k, v) :: t else (a, b) :: mapInsert t k v

/-- `defaultdict(set)` read: the vote set for a key, empty when absent. -/
def setLookup {α : Type} [BEq α] (l : List (α × List Nat)) (k : α) : List Nat :=
  (mapLookup l k).getD []

/-- `defaultdict(set)` update `d[k].add(i)`. -/
def setAdd {α : Type} [BEq α] : List (α × List Nat) → α → Nat → List (α × List Nat)
  | [], k, i => [(k, [i])]
  | (a, v) :: t, k, i =>
    if a == k then (a, if v.contains i then v else v ++ [i]) :: t
    else (a, v) :: setAdd t k i

/-- The consensus state of one pBFT replica.  `sm_applied` is a ghost trace of
`state_machine.apply` calls, tagged with the `(view, seq)` pair being executed. -/
structure PBFTState where
  node_id : Nat
  num_nodes : Nat
  f : Nat
  view : Nat
  sequence : Nat
  pre_prepares : List ((Nat × Nat) × PrePrepareMsg)
  prepares : List ((Nat × Nat × String) × List Nat)
  commits : List ((Nat × Nat × String) × List Nat)
  executed : List (Nat × Nat)
  pending_requests : List (String × ClientRequest)
  view_change_votes : List (Nat × List Nat)
  phase : PBFTPhase
  view_change_timeout : Rat
  malicious : Bool
  sm_applied : List (Nat × Nat × String)
deriving Repr

/-- `self.quorum = 2 * f + 1` (line 26). -/
def quorum (s : PBFTState) : Nat := 2 * s.f + 1

/-- `primary_id` (lines 56–60): `(view % total_nodes) + 1`. -/
def primary_id (s : PBFTState) : Nat := (s.view % s.num_nodes) + 1

/-- `is_primary` (lines 62–65). -/
def is_primary (s : PBFTState) : Bool := s.node_id == primary_id s

/-- `_digest` (lines 67–72), with SHA-256 abstracted as `H`: a malicious
replica hashes the fixed string `"garbage"` instead of the message. -/
def _digest (H : String → String) (malicious : Bool) (m : String) : String :=
  if malicious then H "garbage" else H m

/-- `__init__` (lines 22–54) for a replica with `num_nodes = len(peers) + 1`:
view 0, empty message logs, `state = "normal"`, `view_change_timeout = 5.0`. -/
def initPBFT (node_id num_nodes f : Nat) : PBFTState :=
  { node_id := node_id, num_nodes := num_nodes, f := f, view := 0, sequence := 0,
    pre_prepares := [], prepares := [], commits := [], executed := [],
    pending_requests := [], view_change_votes := [], phase := PBFTPhase.normal,
    view_change_timeout := 5, malicious := false, sm_applied := [] }

/-- `handle_pre_prepare` (lines 191–220): validate view, expected primary and
locally recomputed digest; on acceptance store the PrePrepare and the request,
record the replica's own Prepare vote, and broadcast a Prepare (returned as
the third component); on rejection reply `accepted=False`. -/
def handle_pre_prepare (H : String → String) (s : PBFTState) (m : PrePrepareMsg) :
    PBFTState × Bool × List PrepareMsg :=
  if m.view ≠ s.view then (s, false, [])
  else if m.primary_id ≠ primary_id s then (s, false, [])
  else if m.digest ≠ _digest H s.malicious m.request.operation then (s, false, [])
  else
    let s1 := { s with
      pre_prepares := mapInsert s.pre_prepares (m.view, m.sequence) m,
      pending_requests := mapInsert s.pending_requests m.digest m.request,
      prepares := setAdd s.prepares (m.view, m.sequence, m.digest) s.node_id }
    (s1, true, [⟨m.view, m.sequence, m.digest, s.node_id⟩])

/-- `_execute` (lines 302–312): skip if `(view, seq)` is already executed, else
mark it executed and, if the request is pending under this digest, apply its
operation to the state machine. -/
def _execute (s : PBFTState) (view seq : Nat) (digest : String) : PBFTState :=
  if (view, seq) ∈ s.executed then s
  else
    match mapLookup s.pending_requests digest with
    | some req =>
      { s with executed := (view, seq) :: s.executed,
               sm_applied := s.sm_applied ++ [(view, seq, req.operation)] }
    | none => { s with executed := (view, seq) :: s.executed }

/-- `handle_commit` (lines 282–300): reject a wrong view; record the Commit
vote; execute when the vote set reaches `2f+1` and `(view, seq)` is not yet
executed. -/
def handle_commit (s : PBFTState) (m : CommitMsg) : PBFTState × Bool :=
  if m.view ≠ s.view then (s, false)
  else if quorum s ≤
      (setLookup (setAdd s.commits (m.view, m.sequence, m.digest) m.replica_id)
        (m.view, m.sequence, m.digest)).length ∧
      (m.view, m.sequence) ∉ s.executed then
    (_execute { s with commits := setAdd s.commits (m.view, m.sequence, m.digest) m.replica_id }
      m.view m.sequence m.digest, true)
  else ({ s with commits := setAdd s.commits (m.view, m.sequence, m.digest) m.replica_id }, true)

/-- A sequence of inbound Commit messages handled one after another. -/
def run_commits (s : PBFTState) (ms : List CommitMsg) : PBFTState :=
  ms.foldl (fun st m => (handle_commit st m).1) s

/-- How many state-machine applications the trace records for `(v, n)`. -/
def apply_count (s : PBFTState) (v n : Nat) : Nat :=
  (s.sm_applied.filter (fun t => t.1 == v && t.2.1 == n)).length

/-- The guard of `_timeout_loop` (lines 87–96): a non-primary replica in
normal state initiates a view change when the time since `last_activity`
exceeds `view_change_timeout`. -/
def should_start_view_change (s : PBFTState) (elapsed : Rat) : Bool :=
  decide (s.phase = PBFTPhase.normal) && !(is_primary s) &&
    decide (s.view_change_timeout < elapsed)

/-! ## The outbound partition filter (`src/infrastructure/comms.py`) -/

structure PeerInfo where
  id : Nat
  ip : String
  port : Nat
deriving DecidableEq, Repr

/-- The per-replica block lists set by the `SetPartition` admin RPC. -/
structure NetConfig where
  blocked_node_ids : List Nat
  blocked_ips : List String
deriving Repr

/-- `Communicator._is_blocked` (lines 17–28); the truthiness guards on
`peer.get('id')` / `peer.get('ip')` become the `≠ 0` / `≠ ""` tests. -/
def _is_blocked (cfg : NetConfig) (peer : PeerInfo) : Bool :=
  (peer.id != 0 && cfg.blocked_node_ids.contains peer.id) ||
  (peer.ip != "" && cfg.blocked_ips.contains peer.ip)

/-- What an outbound sender does before touching the network. -/
inductive SendOutcome where
  | shortCircuit : SendOutcome
  | attempt : SendOutcome
deriving DecidableEq, Repr

/-- `Communicator.request_vote` (lines 44–52): checks `_is_blocked` first. -/
def request_vote_send (cfg : NetConfig) (peer : PeerInfo) : SendOutcome :=
  if _is_blocked cfg peer then SendOutcome.shortCircuit else SendOutcome.attempt

/-- `Communicator.append_entries` (lines 54–62): checks `_is_blocked` first. -/
def append_entries_send (cfg : NetConfig) (peer : PeerInfo) : SendOutcome :=
  if _is_blocked cfg peer then SendOutcome.shortCircuit else SendOutcome.attempt

/-- `Communicator.pbft_pre_prepare` (lines 116–123): no block-list check. -/
def pbft_pre_prepare_send (_cfg : NetConfig) (_peer : PeerInfo) : SendOutcome :=
  SendOutcome.attempt

/-- `Communicator.pbft_prepare` (lines 125–132): no block-list check. -/
def pbft_prepare_send (_cfg : NetConfig) (_peer : PeerInfo) : SendOutcome :=
  SendOutcome.attempt

/-- `Communicator.pbft_commit` (lines 134–141): no block-list check. -/
def pbft_commit_send (_cfg : NetConfig) (_peer : PeerInfo) : SendOutcome :=
  SendOutcome.attempt

/-- `Communicator.pbft_view_change` (lines 143–150): no block-list check. -/
def pbft_view_change_send (_cfg : NetConfig) (_peer : PeerInfo) : SendOutcome :=
  SendOutcome.attempt

/-! ## Concrete replica states used as inputs for witnesses and counterexamples -/

/-- A follower that has just learned `commit_index = 2` with two unapplied
committed entries — the input on which the apply loop skips an entry. -/
def c1FailState : RaftState :=
  { current_term := 1, voted_for := some 1,
    log := [⟨1, "SET A=1"⟩, ⟨1, "SET B=2"⟩],
    state := Role.Follower, commit_index := 2, last_applied := 0,
    node_id := 2, peer_ids := [1, 3, 4, 5], next_index := [], match_index := [],
    wal_history := [], timer_resets := 0, sm_applied := [] }

/-- A stand-in for SHA-256 in concrete runs. -/
def testHash (s : String) : String := "h:" ++ s

/-- Backup replica 2 in a 4-replica, `f = 1` BFT cluster, view 0. -/
def c2State0 : PBFTState := initPBFT 2 4 1

/-- A well-formed PrePrepare from primary 1 for sequence 2, which the backup
accepts although it has seen nothing for sequence 1. -/
def c2PrePrepare : PrePrepareMsg :=
  ⟨0, 2, testHash "op2", ⟨"op2", 7, 9⟩, 1⟩

def c2AfterPP : PBFTState := (handle_pre_prepare testHash c2State0 c2PrePrepare).1

/-- Commit messages for sequence 2 from replicas 1, 3 and 4 — a full `2f+1`
quorum arriving before any traffic for sequence 1. -/
def c2Commits : List CommitMsg :=
  [⟨0, 2, testHash "op2", 1⟩, ⟨0, 2, testHash "op2", 3⟩, ⟨0, 2, testHash "op2", 4⟩]

def c2Final : PBFTState := run_commits c2AfterPP c2Commits

/-- A leader of term 2 with a two-entry log whose second entry is replicated
on one of two peers. -/
def c3State : RaftState :=
  { current_term := 2, voted_for := some 1,
    log := [⟨1, "a"⟩, ⟨2, "b"⟩],
    state := Role.Leader, commit_index := 0, last_applied := 0,
    node_id := 1, peer_ids := [2, 3], next_index := [],
    match_index := [(2, 2), (3, 0)],
    wal_history := [], timer_resets := 0, sm_applied := [] }

/-- A follower of term 1 that has not voted, with a one-entry log. -/
def c4State : RaftState :=
  { current_term := 1, voted_for := none,
    log := [⟨1, "x"⟩],
    state := Role.Follower, commit_index := 0, last_applied := 0,
    node_id := 2, peer_ids := [1, 3], next_index := [], match_index := [],
    wal_history := [], timer_resets := 0, sm_applied := [] }

/-- A RequestVote from candidate 3 at term 2 whose log matches the follower's. -/
def c4Req : RequestVoteArgs := ⟨2, 3, 1, 1⟩

/-- A backup of a 4-replica BFT cluster used in the PrePrepare witness. -/
def c6State : PBFTState := initPBFT 3 4 1

/-- A well-formed PrePrepare from primary 1 for sequence 1. -/
def c6PrePrepare : PrePrepareMsg :=
  ⟨0, 1, testHash "writeX", ⟨"writeX", 3, 5⟩, 1⟩

/-- A replica that has already executed `(0, 1)`. -/
def c7State : PBFTState :=
  { initPBFT 1 4 1 with
    executed := [(0, 1)],
    pending_requests := [("d", ⟨"w", 0, 0⟩)],
    commits := [((0, 1, "d"), [1, 2, 3])],
    sm_applied := [(0, 1, "w")] }

/-- A late duplicate Commit for the already-executed `(0, 1)`. -/
def c7Commit : CommitMsg := ⟨0, 1, "d", 4⟩

/-- A peer whose node id is on the block list. -/
def c8Peer : PeerInfo := ⟨2, "127.0.0.1", 5002⟩

def c8Cfg : NetConfig := ⟨[2], []⟩

/-! ## Helper lemmas -/

theorem mapLookup_mapInsert_self {α β : Type} [BEq α] [LawfulBEq α]
    (l : List (α × β)) (k : α) (v : β) : mapLookup (mapInsert l k v) k = some v := by
  induction l with
  | nil => simp [mapInsert, mapLookup]
  | cons p t ih =>
    obtain ⟨a, b⟩ := p
    by_cases h : a = k
    · subst h; simp [mapInsert, mapLookup]
    · simp [mapInsert, mapLookup, h, ih]

theorem mem_setLookup_setAdd {α : Type} [BEq α] [LawfulBEq α]
    (l : List (α × List Nat)) (k : α) (i : Nat) : i ∈ setLookup (setAdd l k i) k := by
  induction l with
  | nil => simp [setAdd, setLookup, mapLookup]
  | cons p t ih =>
    obtain ⟨a, v⟩ := p
    by_cases h : a = k
    · subst h
      simp only [setAdd, beq_self_eq_true, if_pos, setLookup, mapLookup, Option.getD_some]
      by_cases hm : i ∈ v <;> simp [hm]
    · simp [setAdd, setLookup, mapLookup, h] at ih ⊢
      exact ih

theorem decodeEntry_logEntryToJson (e : LogEntry) : decodeEntry (logEntryToJson e) = e := rfl

theorem decodeLog_map (lg : List LogEntry) :
    List.map (decodeEntry ∘ logEntryToJson) lg = lg := by
  induction lg with
  | nil => rfl
  | cons e t ih => simp [List.map, ih, decodeEntry_logEntryToJson, Function.comp]

theorem wal_load_save (t : Nat) (v : Option Nat) (lg : List LogEntry) (f : WalFile) :
    WAL.load (WAL.save t v lg f) = (t, v, lg) := by
  cases v with
  | none =>
    simp [WAL.save, WAL.load, jsonGet, List.find?, decodeTermField, decodeVotedForField,
      decodeLogField, decodeLog_map]
  | some i =>
    simp [WAL.save, WAL.load, jsonGet, List.find?, decodeTermField, decodeVotedForField,
      decodeLogField, decodeLog_map]

theorem getLast?_append_singleton {α : Type} (l : List α) (x : α) :
    (l ++ [x]).getLast? = some x := by
  rw [List.getLast?_append_cons]
  rfl

theorem commit_scan_spec (s : RaftState) (k : Nat) :
    (commit_scan s k = s.commit_index ∨
      (s.commit_index < commit_scan s k ∧ commit_scan s k ≤ k ∧
        log_term_at s (commit_scan s k) = s.current_term ∧
        majority_threshold s < count_replicated s (commit_scan s k))) ∧
    (∀ m, s.commit_index < m → m ≤ k → log_term_at s m = s.current_term →
      majority_threshold s < count_replicated s m → m ≤ commit_scan s k) := by
  induction k with
  | zero =>
    refine ⟨Or.inl rfl, ?_⟩
    intro m h1 h2 _ _
    omega
  | succ n ih =>
    by_cases h1 : n + 1 ≤ s.commit_index
    · have he : commit_scan s (n + 1) = s.commit_index := by simp [commit_scan, h1]
      rw [he]
      refine ⟨Or.inl rfl, ?_⟩
      intro m hm1 hm2 _ _
      omega
    · by_cases h2 : log_term_at s (n + 1) = s.current_term ∧
          majority_threshold s < count_replicated s (n + 1)
      · have he : commit_scan s (n + 1) = n + 1 := by simp [commit_scan, h1, h2]
        rw [he]
        refine ⟨Or.inr ⟨by omega, le_refl _, h2.1, h2.2⟩, ?_⟩
        intro m hm1 hm2 _ _
        omega
      · have he : commit_scan s (n + 1) = commit_scan s n := by
          simp only [commit_scan, if_neg h1, if_neg h2]
        rw [he]
        refine ⟨?_, ?_⟩
        · rcases ih.1 with h | ⟨ha, hb, hc, hd⟩
          · exact Or.inl h
          · exact Or.inr ⟨ha, by omega, hc, hd⟩
        intro m hm1 hm2 hm3 hm4
        rcases Nat.lt_or_ge m (n + 1) with hlt | hge
        · exact ih.2 m hm1 (by omega) hm3 hm4
        · exfalso
          have hmeq : m = n + 1 := by omega
          subst hmeq
          exact h2 ⟨hm3, hm4⟩

theorem execute_already_executed (s : PBFTState) (v n : Nat) (d : String)
    (h : (v, n) ∈ s.executed) : _execute s v n d = s := by
  simp [_execute, h]

theorem execute_executed_mono (s : PBFTState) (v' n' v n : Nat) (d : String)
    (h : (v, n) ∈ s.executed) : (v, n) ∈ (_execute s v' n' d).executed := by
  unfold _execute
  split
  · exact h
  · cases hm : mapLookup s.pending_requests d with
    | none => simp [hm]; exact Or.inr h
    | some req => simp [hm]; exact Or.inr h

theorem execute_apply_count (s : PBFTState) (v' n' v n : Nat) (d : String)
    (hne : ¬(v = v' ∧ n = n')) :
    apply_count (_execute s v' n' d) v n = apply_count s v n := by
  unfold _execute
  split
  · rfl
  · cases hm : mapLookup s.pending_requests d with
    | none => rfl
    | some req =>
      simp only [hm, apply_count, List.filter_append, List.length_append]
      have hz : (List.filter (fun t => t.1 == v && t.2.1 == n) [(v', n', req.operation)]) = [] := by
        simp only [List.filter_cons, List.filter_nil]
        have : ((v' == v) && (n' == n)) = false := by
          rcases Decidable.em (v = v') with hv | hv
          · rcases Decidable.em (n = n') with hn | hn
            · exact absurd ⟨hv, hn⟩ hne
            · simp [Ne.symm hn]
          · simp [Ne.symm hv]
        simp [this]
      rw [hz]
      simp

theorem handle_commit_no_reapply (s : PBFTState) (m : CommitMsg) (v n : Nat)
    (h : (v, n) ∈ s.executed) :
    (v, n) ∈ (handle_commit s m).1.executed ∧
    apply_count (handle_commit s m).1 v n = apply_count s v n := by
  unfold handle_commit
  split
  · exact ⟨h, rfl⟩
  · split
    · rename_i hq
      have hne : ¬(v = m.view ∧ n = m.sequence) := by
        rintro ⟨rfl, rfl⟩
        exact hq.2 h
      refine ⟨?_, ?_⟩
      · exact execute_executed_mono _ m.view m.sequence v n m.digest h
      · exact execute_apply_count _ m.view m.sequence v n m.digest hne
    · exact ⟨h, rfl⟩

theorem run_commits_no_reapply (s : PBFTState) (ms : List CommitMsg) (v n : Nat)
    (h : (v, n) ∈ s.executed) :
    (v, n) ∈ (run_commits s ms).executed ∧
    apply_count (run_commits s ms) v n = apply_count s v n := by
  induction ms generalizing s with
  | nil => exact ⟨h, rfl⟩
  | cons m t ih =>
    have hs := handle_commit_no_reapply s m v n h
    have ht := ih ((handle_commit s m).1) hs.1
    exact ⟨ht.1, by rw [show run_commits s (m :: t) = run_commits (handle_commit s m).1 t from rfl,
      ht.2, hs.2]⟩

theorem rv_grant_phase_spec (s1 : RaftState) (r : RequestVoteArgs) :
    ((rv_grant_phase s1 r).2.vote_granted = true ↔
      ((s1.voted_for = none ∨ s1.voted_for = some r.candidate_id) ∧
        (_last_log_term_of s1.log < r.last_log_term ∨
          (r.last_log_term = _last_log_term_of s1.log ∧ s1.log.length ≤ r.last_log_index)))) ∧
    ((rv_grant_phase s1 r).2.vote_granted = true →
      (rv_grant_phase s1 r).1.voted_for = some r.candidate_id ∧
      (rv_grant_phase s1 r).1.wal_history =
        s1.wal_history ++ [(s1.current_term, some r.candidate_id, s1.log)] ∧
      (rv_grant_phase s1 r).1.timer_resets = s1.timer_resets + 1) ∧
    (rv_grant_phase s1 r).1.current_term = s1.current_term ∧
    (rv_grant_phase s1 r).1.state = s1.state ∧
    ((rv_grant_phase s1 r).2.vote_granted = false → (rv_grant_phase s1 r).1 = s1) := by
  unfold rv_grant_phase
  split
  · rename_i hc
    refine ⟨⟨fun _ => hc, fun _ => rfl⟩, fun _ => ⟨rfl, rfl, rfl⟩, rfl, rfl, fun hf => ?_⟩
    simp at hf
  · rename_i hc
    refine ⟨⟨fun ht => ?_, fun hrhs => absurd hrhs hc⟩, fun ht => ?_, rfl, rfl, fun _ => rfl⟩
    · simp at ht
    · simp at ht

/-! ## Claim theorems -/

/-- C1: the apply loop of `_apply_committed_entries`, started with two newly
committed entries, advances `last_applied` from 0 to 2 but calls the state
machine only once, with the command of entry 2 — the command of entry 1 is
never applied, contradicting "one call per entry, with no entry skipped". -/
theorem raft_apply_loop_skips_entry :
    (_apply_committed_entries c1FailState).last_applied = 2 ∧
    (_apply_committed_entries c1FailState).sm_applied = ["SET B=2"] := by
  constructor <;> rfl

/-- C2: a backup that receives a PrePrepare for sequence 2 and then a `2f+1`
Commit quorum for sequence 2 executes ⟨view 0, seq 2⟩ although ⟨view 0, seq 1⟩
has never been executed — `handle_commit` has no in-order gate. -/
theorem pbft_executes_out_of_order :
    c2Final.executed = [(0, 2)] ∧
    (0, 1) ∉ c2Final.executed ∧
    c2Final.sm_applied = [(0, 2, "op2")] := by
  refine ⟨rfl, by decide, rfl⟩

/-- C5: `WAL.load` returns exactly the tuple written by the last completed
`WAL.save` (whatever the earlier file state and earlier saves), returns
⟨0, none, empty log⟩ when no file exists, and returns ⟨0, none, empty log⟩
for a file whose content cannot be parsed; as a total function it never
raises to the caller. -/
theorem wal_load_spec (f0 : WalFile) (prior : List (Nat × Option Nat × List LogEntry))
    (t : Nat) (v : Option Nat) (lg : List LogEntry) :
    WAL.load (WAL.runSaves f0 (prior ++ [(t, v, lg)])) = (t, v, lg) ∧
    WAL.load WalFile.absent = (0, none, []) ∧
    WAL.load WalFile.corrupt = (0, none, []) := by
  refine ⟨?_, rfl, rfl⟩
  unfold WAL.runSaves
  rw [List.foldl_append]
  simp only [List.foldl_cons, List.foldl_nil]
  exact wal_load_save t v lg _

/-- C7: once `(v, n)` is in the executed set, no sequence of further
`handle_commit` calls applies an operation for `(v, n)` again, `(v, n)` stays
executed, and a direct `_execute` call for `(v, n)` is a no-op. -/
theorem pbft_no_reexecution (s : PBFTState) (ms : List CommitMsg) (v n : Nat) (d : String)
    (h : (v, n) ∈ s.executed) :
    apply_count (run_commits s ms) v n = apply_count s v n ∧
    (v, n) ∈ (run_commits s ms).executed ∧
    _execute s v n d = s :=
  ⟨(run_commits_no_reapply s ms v n h).2, (run_commits_no_reapply s ms v n h).1,
    execute_already_executed s v n d h⟩

/-- Witness for C7 at a concrete replica that has executed `(0, 1)` and then
receives a late duplicate Commit for it. -/
theorem pbft_no_reexecution_witness :
    (0, 1) ∈ c7State.executed ∧
    (apply_count (run_commits c7State [c7Commit]) 0 1 = apply_count c7State 0 1 ∧
     (0, 1) ∈ (run_commits c7State [c7Commit]).executed ∧
     _execute c7State 0 1 "d" = c7State) :=
  ⟨by decide, pbft_no_reexecution c7State [c7Commit] 0 1 "d" (by decide)⟩

/-- C8 counterexample: with node id 2 on the block list, `_is_blocked` is true
for the peer, yet every BFT sender still attempts the call — only the CFT
RequestVote / AppendEntries senders short-circuit. -/
theorem pbft_send_ignores_block_lists :
    _is_blocked c8Cfg c8Peer = true ∧
    pbft_pre_prepare_send c8Cfg c8Peer = SendOutcome.attempt ∧
    pbft_prepare_send c8Cfg c8Peer = SendOutcome.attempt ∧
    pbft_commit_send c8Cfg c8Peer = SendOutcome.attempt ∧
    pbft_view_change_send c8Cfg c8Peer = SendOutcome.attempt ∧
    request_vote_send c8Cfg c8Peer = SendOutcome.shortCircuit := by
  refine ⟨by decide, rfl, rfl, rfl, rfl, by decide⟩

/-- C8 amended: the CFT RequestVote and AppendEntries senders short-circuit
exactly when the destination matches a block list; the BFT PrePrepare,
Prepare, Commit and ViewChange senders never consult the block lists. -/
theorem partition_filter_spec (cfg : NetConfig) (peer : PeerInfo) :
    (request_vote_send cfg peer = SendOutcome.shortCircuit ↔ _is_blocked cfg peer = true) ∧
    (append_entries_send cfg peer = SendOutcome.shortCircuit ↔ _is_blocked cfg peer = true) ∧
    pbft_pre_prepare_send cfg peer = SendOutcome.attempt ∧
    pbft_prepare_send cfg peer = SendOutcome.attempt ∧
    pbft_commit_send cfg peer = SendOutcome.attempt ∧
    pbft_view_change_send cfg peer = SendOutcome.attempt := by
  refine ⟨?_, ?_, rfl, rfl, rfl, rfl⟩ <;>
    · simp only [request_vote_send, append_entries_send]
      split <;> simp_all

/-- C9 counterexample: the default view-change timeout in `__init__` is 5.0
seconds, not 10, and the timer guard already fires for a backup after 6
seconds of silence. -/
theorem view_change_timeout_five_not_ten :
    (initPBFT 2 4 1).view_change_timeout = 5 ∧
    should_start_view_change (initPBFT 2 4 1) 6 = true ∧
    ¬ ((10 : Rat) ≤ 6) := by
  refine ⟨rfl, by decide, by norm_num⟩

/-- C9 amended: with the default 5-second timeout, a replica initiates a view
change exactly when it is a non-primary in normal state and more than 5
seconds have elapsed without traffic from the primary. -/
theorem view_change_timer_spec (s : PBFTState) (e : Rat) (h5 : s.view_change_timeout = 5) :
    should_start_view_change s e = true ↔
      (s.phase = PBFTPhase.normal ∧ is_primary s = false ∧ (5 : Rat) < e) := by
  simp [should_start_view_change, h5, decide_eq_true_eq, Bool.and_eq_true, and_assoc]

/-- Witness for C9's amended theorem at the default-initialised backup 2 of 4
with 6 seconds elapsed. -/
theorem view_change_timer_spec_witness :
    should_start_view_change (initPBFT 2 4 1) 6 = true ↔
      ((initPBFT 2 4 1).phase = PBFTPhase.normal ∧ is_primary (initPBFT 2 4 1) = false ∧
        (5 : Rat) < 6) :=
  view_change_timer_spec (initPBFT 2 4 1) 6 rfl

/-- C3: a leader running `_update_commit_index` either leaves `commit_index`
unchanged or advances it to an index `N > commit_index` whose entry carries
the current term and which a strict majority (the leader plus enough peers
with `match_index ≥ N`) has replicated; and no larger index satisfying both
conditions exists below it. -/
theorem update_commit_index_spec (s : RaftState) (hL : s.state = Role.Leader) :
    ((_update_commit_index s).commit_index = s.commit_index ∨
      (s.commit_index < (_update_commit_index s).commit_index ∧
        (_update_commit_index s).commit_index ≤ s.log.length ∧
        log_term_at s (_update_commit_index s).commit_index = s.current_term ∧
        majority_threshold s < count_replicated s (_update_commit_index s).commit_index)) ∧
    (∀ m, s.commit_index < m → m ≤ s.log.length → log_term_at s m = s.current_term →
      majority_threshold s < count_replicated s m →
      m ≤ (_update_commit_index s).commit_index) := by
  have h : _update_commit_index s = { s with commit_index := commit_scan s s.log.length } := by
    simp [_update_commit_index, hL]
  rw [h]
  exact commit_scan_spec s s.log.length

/-- Witness for C3: on a concrete leader of term 2 with entry 2 replicated on
a majority, the theorem yields `commit_index ≥ 2` after the scan. -/
theorem update_commit_index_spec_witness :
    c3State.state = Role.Leader ∧ 2 ≤ (_update_commit_index c3State).commit_index :=
  ⟨rfl, (update_commit_index_spec c3State rfl).2 2 (by decide) (by decide) (by decide) (by decide)⟩

/-- C4: `handle_request_vote` grants the vote exactly when the request's term
is at least the replica's, the replica has not voted for a different candidate
in that term (a strictly higher incoming term resets the vote), and the
candidate's log is at least as up-to-date; a granted vote updates `voted_for`,
is persisted to the WAL and resets the election timer before the reply, and a
strictly higher term is adopted with reversion to Follower. -/
theorem handle_request_vote_spec (s : RaftState) (r : RequestVoteArgs) :
    ((handle_request_vote s r).2.vote_granted = true ↔
      (s.current_term ≤ r.term ∧
        (s.current_term < r.term ∨ s.voted_for = none ∨ s.voted_for = some r.candidate_id) ∧
        (_last_log_term_of s.log < r.last_log_term ∨
          (r.last_log_term = _last_log_term_of s.log ∧ s.log.length ≤ r.last_log_index)))) ∧
    ((handle_request_vote s r).2.vote_granted = true →
      (handle_request_vote s r).1.voted_for = some r.candidate_id ∧
      (handle_request_vote s r).1.wal_history.getLast? =
        some ((handle_request_vote s r).1.current_term, some r.candidate_id, s.log) ∧
      (handle_request_vote s r).1.timer_resets = s.timer_resets + 1) ∧
    (s.current_term < r.term →
      (handle_request_vote s r).1.current_term = r.term ∧
      (handle_request_vote s r).1.state = Role.Follower) := by
  by_cases h1 : r.term < s.current_term
  · unfold handle_request_vote
    rw [if_pos h1]
    refine ⟨⟨fun hf => by simp at hf, fun hrhs => by omega⟩,
      fun hf => by simp at hf, fun h2 => by omega⟩
  · by_cases h2 : s.current_term < r.term
    · unfold handle_request_vote
      rw [if_neg h1, if_pos h2]
      have hg := rv_grant_phase_spec
        (_persist { s with current_term := r.term, voted_for := none, state := Role.Follower }) r
      refine ⟨?_, ?_, ?_⟩
      · rw [hg.1]
        constructor
        · intro hc
          exact ⟨by omega, Or.inl h2, hc.2⟩
        · intro hc
          exact ⟨Or.inl rfl, hc.2.2⟩
      · intro ht
        have he := hg.2.1 ht
        refine ⟨he.1, ?_, he.2.2⟩
        rw [he.2.1, hg.2.2.1, getLast?_append_singleton]
        rfl
      · intro _
        exact ⟨hg.2.2.1, hg.2.2.2.1⟩
    · unfold handle_request_vote
      rw [if_neg h1, if_neg h2]
      have hg := rv_grant_phase_spec s r
      refine ⟨?_, ?_, fun hlt => absurd hlt h2⟩
      · rw [hg.1]
        constructor
        · intro hc
          exact ⟨by omega, Or.inr hc.1, hc.2⟩
        · intro hc
          refine ⟨?_, hc.2.2⟩
          rcases hc.2.1 with h | h
          · exact absurd h h2
          · exact h
      · intro ht
        have he := hg.2.1 ht
        refine ⟨he.1, ?_, he.2.2⟩
        rw [he.2.1, hg.2.2.1, getLast?_append_singleton]

/-- Witness for C4: the concrete follower grants the vote to candidate 3 and
its timer-reset counter advances. -/
theorem handle_request_vote_spec_witness :
    (handle_request_vote c4State c4Req).2.vote_granted = true ∧
    (handle_request_vote c4State c4Req).1.timer_resets = c4State.timer_resets + 1 := by
  have h := handle_request_vote_spec c4State c4Req
  have hg : (handle_request_vote c4State c4Req).2.vote_granted = true := h.1.mpr (by decide)
  exact ⟨hg, (h.2.1 hg).2.2⟩

/-- C6: a backup accepts a PrePrepare iff the view matches its own, the
message's `primary_id` is the expected primary for that view, and the digest
equals the locally recomputed hash of the request's operation; on acceptance
it stores the PrePrepare and the request, records its own Prepare vote for
⟨view, seq, digest⟩ and broadcasts a Prepare; on rejection the state is
unchanged and nothing is sent. -/
theorem handle_pre_prepare_spec (H : String → String) (s : PBFTState) (m : PrePrepareMsg) :
    ((handle_pre_prepare H s m).2.1 = true ↔
      (m.view = s.view ∧ m.primary_id = primary_id s ∧
        m.digest = _digest H s.malicious m.request.operation)) ∧
    ((handle_pre_prepare H s m).2.1 = true →
      mapLookup (handle_pre_prepare H s m).1.pre_prepares (m.view, m.sequence) = some m ∧
      mapLookup (handle_pre_prepare H s m).1.pending_requests m.digest = some m.request ∧
      s.node_id ∈ setLookup (handle_pre_prepare H s m).1.prepares (m.view, m.sequence, m.digest) ∧
      (handle_pre_prepare H s m).2.2 = [⟨m.view, m.sequence, m.digest, s.node_id⟩]) ∧
    ((handle_pre_prepare H s m).2.1 = false →
      (handle_pre_prepare H s m).1 = s ∧ (handle_pre_prepare H s m).2.2 = []) := by
  unfold handle_pre_prepare
  split
  · rename_i hv
    refine ⟨⟨fun hf => by simp at hf, fun hc => absurd hc.1 hv⟩,
      fun hf => by simp at hf, fun _ => ⟨rfl, rfl⟩⟩
  · rename_i hv
    split
    · rename_i hp
      refine ⟨⟨fun hf => by simp at hf, fun hc => absurd hc.2.1 hp⟩,
        fun hf => by simp at hf, fun _ => ⟨rfl, rfl⟩⟩
    · rename_i hp
      split
      · rename_i hd
        refine ⟨⟨fun hf => by simp at hf, fun hc => absurd hc.2.2 hd⟩,
          fun hf => by simp at hf, fun _ => ⟨rfl, rfl⟩⟩
      · rename_i hd
        refine ⟨⟨fun _ => ⟨not_ne_iff.mp hv, not_ne_iff.mp hp, not_ne_iff.mp hd⟩, fun _ => rfl⟩,
          fun _ => ?_, fun hf => by simp at hf⟩
        refine ⟨mapLookup_mapInsert_self _ _ _, mapLookup_mapInsert_self _ _ _,
          mem_setLookup_setAdd _ _ _, rfl⟩

/-- Witness for C6: backup 3 of a 4-replica cluster accepts a well-formed
PrePrepare from primary 1 and stores it. -/
theorem handle_pre_prepare_spec_witness :
    (handle_pre_prepare testHash c6State c6PrePrepare).2.1 = true ∧
    mapLookup (handle_pre_prepare testHash c6State c6PrePrepare).1.pre_prepares (0, 1) =
      some c6PrePrepare := by
  have h := handle_pre_prepare_spec testHash c6State c6PrePrepare
  have hg : (handle_pre_prepare testHash c6State c6PrePrepare).2.1 = true := h.1.mpr (by decide)
  exact ⟨hg, (h.2.1 hg).1⟩

/-- C10: whenever `StateMachine.apply` reports failure — empty command,
malformed SET, DELETE or GET of an absent key, or an unknown operation — the
key-value map is returned unchanged. -/
theorem state_machine_apply_atomic (cmd : String) (m : KVMap)
    (h : (StateMachine.apply cmd m).1 = false) :
    (StateMachine.apply cmd m).2.2 = m := by
  unfold StateMachine.apply at h ⊢
  rcases hps : pySplit1 (pyStripL cmd.data) with _ | ⟨p0, rest⟩
  case nil => simp [hps]
  case cons =>
    simp only [hps] at h ⊢
    split_ifs at h ⊢ <;>
      first
        | rfl
        | (rcases hk : kvGet m ⟨pyStripL (rest.headD [])⟩ with _ | v <;>
            simp only [hk] at h ⊢)

/-- Witness for C10: deleting an absent key fails and leaves the map intact. -/
theorem state_machine_apply_atomic_witness :
    (StateMachine.apply "DELETE missing" [("A", "10")]).1 = false ∧
    (StateMachine.apply "DELETE missing" [("A", "10")]).2.2 = [("A", "10")] :=
  ⟨by decide, state_machine_apply_atomic "DELETE missing" [("A", "10")] (by decide)⟩
